import Mathlib

/-
Verification of the spec-formatting pipeline (Extractor / Rebuilder) of the
specs-formatting-program repository.

The program's core logic lives in `src/spec_tool_gui.py`:
  * `extract_master_to_markdown` (lines 109-176): filters and classifies each
    source paragraph and emits a line-oriented intermediate representation.
  * `rebuild_from_markdown` (lines 231-327): re-parses each intermediate line
    and emits styled paragraphs into the target template, with the helper
    `add_safe_paragraph` (lines 252-256) falling back to the 'Normal' style.

Python strings are modelled as `List Char` (ASCII model: `\d` is modelled as
the ASCII digits, `\s` as the ASCII whitespace class, `str.upper`/`str.strip`
as their ASCII behaviour, which is all the patterns of this program exercise).
Fallible Python code (KeyError / IndexError propagating to the outer
`except` handler) is modelled with `Except Unit`.
-/

namespace SpecFormat

/-- Strings of the Python source, modelled as lists of characters. -/
abbrev Str := List Char

/-- ASCII whitespace class: the characters Python's `str.strip` (no argument)
and the regex class `\s` treat as whitespace, restricted to ASCII. -/
def isWS (c : Char) : Bool :=
  c = ' ' || c = '\t' || c = '\n' || c = '\r' || c = '\x0b' || c = '\x0c'

/-- Python `str.lstrip()`. -/
def lstrip (s : Str) : Str := s.dropWhile isWS

/-- Python `str.rstrip()`. -/
def rstrip (s : Str) : Str := (s.reverse.dropWhile isWS).reverse

/-- Python `str.strip()`. -/
def strip (s : Str) : Str := rstrip (lstrip s)

/-- Python `str.upper()` (ASCII model). -/
def toUpperStr (s : Str) : Str := s.map Char.toUpper

/-- Regex class `\d` (ASCII model). -/
def isDigitC (c : Char) : Bool := '0' ≤ c && c ≤ '9'

/-- Regex class `[A-Z]`. -/
def isUpperAZ (c : Char) : Bool := 'A' ≤ c && c ≤ 'Z'

/-- Regex class `[a-z]`. -/
def isLowerAZ (c : Char) : Bool := 'a' ≤ c && c ≤ 'z'

/-- Regex class `[A-Za-z0-9]`. -/
def isAlnumC (c : Char) : Bool := isUpperAZ c || isLowerAZ c || isDigitC c

/-- Regex `re.match(r'^[A-Z]\.\s', text)` as a Boolean test. -/
def matchUpperDot (s : Str) : Bool :=
  match s with
  | c1 :: '.' :: c2 :: _ => isUpperAZ c1 && isWS c2
  | _ => false

/-- Regex `re.match(r'^[a-z]\.\s', text)` as a Boolean test. -/
def matchLowerDot (s : Str) : Bool :=
  match s with
  | c1 :: '.' :: c2 :: _ => isLowerAZ c1 && isWS c2
  | _ => false

/-- Regex `re.match(r'^\d+\.\s', text)` as a Boolean test.  Since `.` is not
a digit, the greedy `\d+` always matches exactly the maximal leading digit
run, so the match test needs no backtracking. -/
def matchDigitDot (s : Str) : Bool :=
  (s.takeWhile isDigitC ≠ []) &&
    (match s.dropWhile isDigitC with
     | '.' :: c :: _ => isWS c
     | _ => false)

/-- Regex `re.match(r'^\d+\)\s', text)` as a Boolean test. -/
def matchDigitParen (s : Str) : Bool :=
  (s.takeWhile isDigitC ≠ []) &&
    (match s.dropWhile isDigitC with
     | ')' :: c :: _ => isWS c
     | _ => false)

/-- Regex `re.match(r'^[a-z]\)\s', text)` as a Boolean test. -/
def matchLowerParen (s : Str) : Bool :=
  match s with
  | c1 :: ')' :: c2 :: _ => isLowerAZ c1 && isWS c2
  | _ => false

/-- Regex `re.match(r'^\d+\.\d+\s', text)` as a Boolean test (the article
header pattern: digits, dot, digits, whitespace). -/
def matchArticle (s : Str) : Bool :=
  (s.takeWhile isDigitC ≠ []) &&
    (match s.dropWhile isDigitC with
     | '.' :: rest =>
       (rest.takeWhile isDigitC ≠ []) &&
         (match rest.dropWhile isDigitC with
          | c :: _ => isWS c
          | [] => false)
     | _ => false)

/-- The Extractor's per-paragraph classification
(`ClassifiedLine.kind` of the spec's data model). -/
inductive Kind where
  | sectionTitle
  | partHeader
  | articleHeader
  | listItem (depth : Nat)
  | body
deriving DecidableEq

/-- The classification chain of `extract_master_to_markdown`
(src/spec_tool_gui.py lines 156-169; identical logic at
src/spec_automator.py lines 44-84), translated branch for branch.  The
first three checks are the `if`/`elif` chain, the five list patterns are the
inner `if`/`elif` chain of the `else` block, and the final `else` is Body. -/
def classify (text : Str) : Kind :=
  if "SECTION".toList <+: toUpperStr text then .sectionTitle
  else if "PART".toList <+: toUpperStr text ∧ '-' ∈ text then .partHeader
  else if matchArticle text then .articleHeader
  else if matchUpperDot text then .listItem 0
  else if matchDigitDot text then .listItem 1
  else if matchLowerDot text then .listItem 2
  else if matchDigitParen text then .listItem 3
  else if matchLowerParen text then .listItem 4
  else .body

/-- The intermediate-representation lines emitted for one classified
paragraph (the f-strings of src/spec_tool_gui.py lines 156-169, split at
their embedded newline: the PART and article entries are written as
`"\n## ..."` / `"\n### ..."`, i.e. a blank line followed by the marked
line).  For a list item at depth `d` the indent is `2*d` spaces, matching
the literal 0/2/4/6/8-space indents of the source. -/
def kindLine (k : Kind) (text : Str) : List Str :=
  match k with
  | .sectionTitle => ["# ".toList ++ text]
  | .partHeader => [[], "## ".toList ++ text]
  | .articleHeader => [[], "### ".toList ++ text]
  | .listItem d => [List.replicate (2 * d) ' ' ++ "- ".toList ++ text]
  | .body => ["  ".toList ++ text]

/-- The `IGNORED_STYLES` denylist of `extract_master_to_markdown`
(src/spec_tool_gui.py lines 118-124). -/
def IGNORED_STYLES : List Str :=
  ["Specifier Note".toList, "Note".toList, "Instruction".toList,
   "Editing Instruction".toList, "CMT".toList]

/-- The `IGNORED_STARTS` keyword list of `extract_master_to_markdown`
(src/spec_tool_gui.py lines 128-135). -/
def IGNORED_STARTS : List Str :=
  ["See Editing Instruction".toList, "Adjust list below".toList,
   "Retain ".toList, "Delete ".toList, "Edit ".toList,
   "Verify that Section titles".toList]

/-- One iteration of the paragraph loop of `extract_master_to_markdown`
(src/spec_tool_gui.py lines 137-169): trim, skip empty, apply the style
denylist and the keyword filter, then classify and emit. -/
def extractPara (styleName rawText : Str) : List Str :=
  let text := strip rawText
  if text = [] then []
  else if styleName ∈ IGNORED_STYLES then []
  else if IGNORED_STARTS.any (fun k => decide (k <+: text)) then []
  else kindLine (classify text) text

/-- The whole paragraph loop: the concatenated intermediate lines of a
paragraph stream (each paragraph is a `(styleName, text)` pair). -/
def extractDoc : List (Str × Str) → List Str
  | [] => []
  | p :: ps => extractPara p.1 p.2 ++ extractDoc ps

/-!  The Rebuilder (`rebuild_from_markdown`). -/

/-- The style mapping the Rebuilder reads from the configuration
(`config.get("styles", ...)`): a Python dict that may lack any of the three
keys the Rebuilder indexes (`style_map["Title"]`, `style_map["Part"]`,
`style_map["Article"]`); a missing key raises KeyError at lookup time. -/
structure StyleMap where
  title : Option Str
  part : Option Str
  article : Option Str

/-- The configuration data `rebuild_from_markdown` uses: the style map, the
`list_levels` sequence and the two strip options. -/
structure Config where
  styles : StyleMap
  listLevels : List Str
  stripHeadingNumbers : Bool
  stripListLabels : Bool

/-- The `DEFAULT_CONFIG` dictionary of src/spec_tool_gui.py lines 13-24. -/
def DEFAULT_CONFIG : Config :=
  { styles := { title := some "Heading 1".toList,
                part := some "Heading 2".toList,
                article := some "Heading 3".toList },
    listLevels := ["List Bullet".toList, "List Bullet 2".toList,
                   "List Bullet 3".toList],
    stripHeadingNumbers := true,
    stripListLabels := true }

/-- The set of paragraph-style names defined in the target template,
modelled as the list of names for which `doc.add_paragraph(text, style=n)`
succeeds; any other name raises KeyError. -/
abbrev Template := List Str

/-- Dictionary lookup `style_map[key]`: KeyError when the key is absent. -/
def getStyle (o : Option Str) : Except Unit Str :=
  match o with
  | some s => .ok s
  | none => .error ()

/-- The helper `add_safe_paragraph` (src/spec_tool_gui.py lines 252-256):
try the requested style; on KeyError fall back to 'Normal'.  The fallback
call is outside the `try`, so a KeyError from a template with no 'Normal'
style propagates to the outer handler.  The result is the emitted
`(text, styleUsed)` paragraph. -/
def addSafeParagraph (tmpl : Template) (text styleName : Str) :
    Except Unit (Str × Str) :=
  if styleName ∈ tmpl then .ok (text, styleName)
  else if "Normal".toList ∈ tmpl then .ok (text, "Normal".toList)
  else .error ()

/-- The helper `clean_heading_label`'s regex substitution
`re.sub(r'^\d+\.\d+\s+', '', text)` (src/spec_tool_gui.py lines 258-261):
remove a leading digits-dot-digits-whitespace token if present.  Greedy
`\d+`/`\s+` match the maximal runs since neither `.` nor the following
literal is in the repeated class. -/
def stripHeadingNumber (s : Str) : Str :=
  if s.takeWhile isDigitC = [] then s
  else
    match s.dropWhile isDigitC with
    | '.' :: rest =>
      if rest.takeWhile isDigitC = [] then s
      else
        match rest.dropWhile isDigitC with
        | c :: _ =>
          if isWS c then (rest.dropWhile isDigitC).dropWhile isWS else s
        | [] => s
    | _ => s

/-- The helper `clean_list_label`'s regex substitution
`re.sub(r'^[A-Za-z0-9]+[\.\)]\s+', '', text)` (src/spec_tool_gui.py lines
263-266). -/
def stripListLabel (s : Str) : Str :=
  if s.takeWhile isAlnumC = [] then s
  else
    match s.dropWhile isAlnumC with
    | c :: rest =>
      if c = '.' ∨ c = ')' then
        match rest with
        | c2 :: _ => if isWS c2 then rest.dropWhile isWS else s
        | [] => s
      else s
    | [] => s

/-- Fuel-indexed helper for `removeAll`; the fuel only serves structural
termination and is always at least the length of the scanned list. -/
def removeAllAux (pat : Str) : Nat → Str → Str
  | 0, s => s
  | _ + 1, [] => []
  | fuel + 1, c :: rest =>
    if pat ≠ [] ∧ pat <+: (c :: rest) then
      removeAllAux pat fuel (rest.drop (pat.length - 1))
    else c :: removeAllAux pat fuel rest

/-- Python `s.replace(pat, "")`: remove every non-overlapping occurrence of
`pat`, scanning left to right.  This is how the Rebuilder strips the `# `,
`## ` and `### ` markers (src/spec_tool_gui.py lines 284, 289, 294). -/
def removeAll (pat s : Str) : Str := removeAllAux pat s.length s

/-- The target-style selection of the list branch (src/spec_tool_gui.py
lines 307-310): `list_map[indent_level]` when in range, else `list_map[-1]`
(which raises IndexError on an empty list). -/
def listTargetStyle (listMap : List Str) (indentLevel : Nat) :
    Except Unit Str :=
  if h : indentLevel < listMap.length then .ok (listMap.get ⟨indentLevel, h⟩)
  else
    match listMap.getLast? with
    | some s => .ok s
    | none => .error ()

/-- One iteration of the line loop of `rebuild_from_markdown`
(src/spec_tool_gui.py lines 270-321), branch for branch: the state is the
`previous_line_was_title` Boolean, the value is the list of emitted
`(text, styleUsed)` paragraphs (empty for a blank line) together with the
new state; `.error` is an exception reaching the outer handler. -/
def processLine (cfg : Config) (tmpl : Template) (flag : Bool) (line : Str) :
    Except Unit (List (Str × Str) × Bool) :=
  let raw := rstrip line
  let stripped := strip raw
  if stripped = [] then .ok ([], flag)
  else if "END OF SECTION".toList <+: toUpperStr stripped then
    match getStyle cfg.styles.title with
    | .error e => .error e
    | .ok st =>
      match addSafeParagraph tmpl stripped st with
      | .error e => .error e
      | .ok p => .ok ([p], false)
  else if "# ".toList <+: stripped then
    let cleanText := removeAll "# ".toList stripped
    match getStyle cfg.styles.title with
    | .error e => .error e
    | .ok st =>
      match addSafeParagraph tmpl cleanText st with
      | .error e => .error e
      | .ok p => .ok ([p], true)
  else if "## ".toList <+: stripped then
    let cleanText := removeAll "## ".toList stripped
    match getStyle cfg.styles.part with
    | .error e => .error e
    | .ok st =>
      match addSafeParagraph tmpl cleanText st with
      | .error e => .error e
      | .ok p => .ok ([p], false)
  else if "### ".toList <+: stripped then
    let textNoHash := removeAll "### ".toList stripped
    let cleanText :=
      if cfg.stripHeadingNumbers then stripHeadingNumber textNoHash
      else textNoHash
    match getStyle cfg.styles.article with
    | .error e => .error e
    | .ok st =>
      match addSafeParagraph tmpl cleanText st with
      | .error e => .error e
      | .ok p => .ok ([p], false)
  else if "- ".toList <+: stripped then
    let indentLevel := raw.findIdx (fun c => c == '-') / 2
    let textNoDash := stripped.drop 2
    let cleanContent :=
      if cfg.stripListLabels then stripListLabel textNoDash else textNoDash
    match listTargetStyle cfg.listLevels indentLevel with
    | .error e => .error e
    | .ok st =>
      match addSafeParagraph tmpl cleanContent st with
      | .error e => .error e
      | .ok p => .ok ([p], false)
  else
    if flag then
      match getStyle cfg.styles.title with
      | .error e => .error e
      | .ok st =>
        match addSafeParagraph tmpl stripped st with
        | .error e => .error e
        | .ok p => .ok ([p], false)
    else
      match addSafeParagraph tmpl stripped "Normal".toList with
      | .error e => .error e
      | .ok p => .ok ([p], false)

/-- The whole line loop, threading the `previous_line_was_title` flag and
collecting the emitted paragraphs in order. -/
def runLines (cfg : Config) (tmpl : Template) : Bool → List Str →
    Except Unit (List (Str × Str))
  | _, [] => .ok []
  | flag, l :: ls =>
    match processLine cfg tmpl flag l with
    | .error e => .error e
    | .ok (ps, flag2) =>
      match runLines cfg tmpl flag2 ls with
      | .error e => .error e
      | .ok rest => .ok (ps ++ rest)

/-- The log messages `rebuild_from_markdown` could report through
`log_func`: the template-missing error (line 232) and the per-document
abort error of the outer `except` handler (line 326).  `styleWarning` is
the per-style fallback warning the specification describes; it is included
in the message type so that its absence from every run is a statement about
the code, not about the type. -/
inductive LogMsg where
  | templateNotFound
  | styleWarning (style : Str)
  | buildError
deriving DecidableEq

/-- `rebuild_from_markdown` end to end (src/spec_tool_gui.py lines
231-327): result is (returned Boolean, logged messages, saved document).
The document is saved only when the whole line loop ran without an
exception; an exception logs the build error and returns False with no
output. -/
def rebuild (templateExists : Bool) (tmpl : Template) (cfg : Config)
    (lines : List Str) :
    Bool × List LogMsg × Option (List (Str × Str)) :=
  if templateExists = false then (false, [LogMsg.templateNotFound], none)
  else
    match runLines cfg tmpl false lines with
    | .ok out => (true, [], some out)
    | .error _ => (false, [LogMsg.buildError], none)

/-- A sample target template for concrete runs: the default style names
plus the always-present 'Normal' style. -/
def sampleTemplate : Template :=
  ["Normal".toList, "Heading 1".toList, "Heading 2".toList, "Heading 3".toList,
   "List Bullet".toList, "List Bullet 2".toList, "List Bullet 3".toList]

/-- A sample template containing only the always-present 'Normal' style. -/
def normalOnlyTemplate : Template := ["Normal".toList]

/-- A sample configuration written for a different template: none of its
style names exist in `normalOnlyTemplate`. -/
def csiConfig : Config :=
  { styles := { title := some "CSILevel0".toList,
                part := some "CSILevel1".toList,
                article := some "CSILevel2".toList },
    listLevels := ["CSIList1".toList, "CSIList2".toList],
    stripHeadingNumbers := true,
    stripListLabels := true }

/-- A configuration whose parsed styles mapping lacks the "Title" key. -/
def noTitleConfig : Config :=
  { styles := { title := none,
                part := some "Heading 2".toList,
                article := some "Heading 3".toList },
    listLevels := ["List Bullet".toList],
    stripHeadingNumbers := true,
    stripListLabels := true }

/-!  The Rebuilder's line classification, as a standalone view of the
branch structure of `processLine` (same conditions, same order), used to
state the round-trip claim. -/

/-- The classification the Rebuilder's line-parsing rules assign to an
intermediate line (the branch of src/spec_tool_gui.py lines 274-316 that
the line takes). -/
inductive LineTag where
  | blank
  | endOfSection
  | title
  | part
  | article
  | listLine (depth : Nat)
  | body
deriving DecidableEq

/-- Which branch of the Rebuilder's line loop a line takes, including the
depth computation `raw_text.find("-") // 2` of the list branch. -/
def lineTag (line : Str) : LineTag :=
  let raw := rstrip line
  let stripped := strip raw
  if stripped = [] then .blank
  else if "END OF SECTION".toList <+: toUpperStr stripped then .endOfSection
  else if "# ".toList <+: stripped then .title
  else if "## ".toList <+: stripped then .part
  else if "### ".toList <+: stripped then .article
  else if "- ".toList <+: stripped then
    .listLine (raw.findIdx (fun c => c == '-') / 2)
  else .body

/-- The line classification that corresponds to an Extractor
classification, for stating the round-trip property. -/
def kindTag : Kind → LineTag
  | .sectionTitle => .title
  | .partHeader => .part
  | .articleHeader => .article
  | .listItem d => .listLine d
  | .body => .body

/-!  The spec-side classifier for the refinement claim C2: an explicit
ordered list of (predicate, kind) rules evaluated first-match-wins, written
from the spec's words ("Classify the surviving text, first-match-wins, in
this fixed priority order"). -/

/-- Modelled from the spec: the fixed priority order (a) SECTION, (b) PART
with hyphen, (c) article pattern, then the five list-label patterns at
depths 0-4. -/
def specRules : List ((Str → Bool) × Kind) :=
  [ (fun t => decide ("SECTION".toList <+: toUpperStr t), .sectionTitle),
    (fun t => decide ("PART".toList <+: toUpperStr t ∧ '-' ∈ t), .partHeader),
    (matchArticle, .articleHeader),
    (matchUpperDot, .listItem 0),
    (matchDigitDot, .listItem 1),
    (matchLowerDot, .listItem 2),
    (matchDigitParen, .listItem 3),
    (matchLowerParen, .listItem 4) ]

/-- Modelled from the spec: first-match-wins evaluation of an ordered rule
list; anything no rule matches is Body. -/
def firstMatch (rules : List ((Str → Bool) × Kind)) (t : Str) : Kind :=
  match rules with
  | [] => .body
  | r :: rs => if r.1 t then r.2 else firstMatch rs t

/-- Modelled from the spec: the classifier described by the spec's
priority-order sentence. -/
def classifySpec (t : Str) : Kind := firstMatch specRules t

end SpecFormat

namespace SpecFormat

/-!  General helper lemmas about the string model. -/

/-- Helper: a cons list with one head is never a prefix of a cons list with
a different head. -/
theorem not_pre_head {a b : Char} (hne : a ≠ b) (p s : Str) :
    ¬ ((a :: p) <+: (b :: s)) := fun h => hne (List.cons_prefix_cons.mp h).1

/-- Helper: if `dropWhile` keeps a cons list whole, its head fails the
predicate. -/
theorem dropWhile_fix_head {α : Type} {p : α → Bool} {a : α} {l : List α}
    (h : List.dropWhile p (a :: l) = a :: l) : p a = false := by
  by_contra hb
  rw [List.dropWhile_cons_of_pos (by simpa using hb)] at h
  have h1 : (List.dropWhile p l).length ≤ l.length :=
    (List.dropWhile_suffix p).sublist.length_le
  rw [h] at h1
  simp at h1

/-- Helper: `dropWhile` is idempotent. -/
theorem dropWhile_idem {α : Type} (p : α → Bool) (l : List α) :
    List.dropWhile p (List.dropWhile p l) = List.dropWhile p l := by
  induction l with
  | nil => rfl
  | cons a l ih =>
    by_cases h : p a
    · rw [List.dropWhile_cons_of_pos h]; exact ih
    · rw [List.dropWhile_cons_of_neg h, List.dropWhile_cons_of_neg h]

/-- Helper: `lstrip` keeps a list whose head is not whitespace. -/
theorem lstrip_cons_of_neg {a : Char} (h : isWS a = false) (l : Str) :
    lstrip (a :: l) = a :: l := by
  unfold lstrip
  rw [List.dropWhile_cons_of_neg (by simp [h])]

/-- Helper: `rstrip` keeps any list that ends in an already right-stripped
non-empty tail. -/
theorem rstrip_append (a : Str) {b : Str} (hb : rstrip b = b) (hne : b ≠ []) :
    rstrip (a ++ b) = a ++ b := by
  obtain ⟨c, r, hcr⟩ : ∃ c r, b.reverse = c :: r := by
    cases hrev : b.reverse with
    | nil => exact absurd (by simpa using congrArg List.reverse hrev) hne
    | cons c r => exact ⟨c, r, rfl⟩
  have hdw : List.dropWhile isWS b.reverse = b.reverse := by
    have h2 := congrArg List.reverse hb
    simpa [rstrip] using h2
  have hc : isWS c = false := by
    rw [hcr] at hdw; exact dropWhile_fix_head hdw
  show ((a ++ b).reverse.dropWhile isWS).reverse = a ++ b
  rw [List.reverse_append, hcr, List.cons_append,
      List.dropWhile_cons_of_neg (by simp [hc]), ← List.cons_append, ← hcr,
      ← List.reverse_append, List.reverse_reverse]

/-- Helper: `rstrip` is idempotent. -/
theorem rstrip_idem (l : Str) : rstrip (rstrip l) = rstrip l := by
  unfold rstrip
  rw [List.reverse_reverse, dropWhile_idem]

/-- Helper: `rstrip l` is a prefix of `l`. -/
theorem rstrip_append_right (l : Str) : ∃ t, rstrip l ++ t = l := by
  refine ⟨(l.reverse.takeWhile isWS).reverse, ?_⟩
  show (l.reverse.dropWhile isWS).reverse ++ (l.reverse.takeWhile isWS).reverse = l
  rw [← List.reverse_append, List.takeWhile_append_dropWhile, List.reverse_reverse]

/-- Helper: a stripped string is left-stripped. -/
theorem lstrip_strip (s : Str) : lstrip (strip s) = strip s := by
  unfold strip
  have hlu : lstrip (lstrip s) = lstrip s := dropWhile_idem isWS s
  obtain ⟨t, ht⟩ := rstrip_append_right (lstrip s)
  cases hr : rstrip (lstrip s) with
  | nil => rfl
  | cons c r =>
    have hu : lstrip s = c :: (r ++ t) := by
      rw [← ht, hr]; simp
    have hc : isWS c = false := by
      apply dropWhile_fix_head (p := isWS) (l := r ++ t)
      rw [hu] at hlu
      exact hlu
    exact lstrip_cons_of_neg hc r

/-- Helper: a stripped string is right-stripped. -/
theorem rstrip_strip (s : Str) : rstrip (strip s) = strip s := rstrip_idem _

/-- Helper: `dropWhile` runs through a replicate of matching characters. -/
theorem dropWhile_replicate_append (p : Char → Bool) (c : Char) (hp : p c = true)
    (n : Nat) (l : Str) :
    List.dropWhile p (List.replicate n c ++ l) = List.dropWhile p l := by
  induction n with
  | zero => rfl
  | succ n ih =>
    rw [List.replicate_succ, List.cons_append, List.dropWhile_cons_of_pos (by simp [hp])]
    exact ih

/-- Helper: `findIdx` counts past a replicate of non-matching characters. -/
theorem findIdx_replicate_append (p : Char → Bool) (c : Char) (hp : p c = false)
    (n : Nat) (l : Str) :
    List.findIdx p (List.replicate n c ++ l) = n + List.findIdx p l := by
  induction n with
  | zero => simp
  | succ n ih =>
    rw [List.replicate_succ, List.cons_append, List.findIdx_cons]
    simp [hp, ih]
    omega

/-- Helper: a prefix of an upper-cased string determines the head of the
original string up to `Char.toUpper`. -/
theorem upper_pre_head {a : Char} {p s : Str} (h : (a :: p) <+: toUpperStr s) :
    ∃ u s2, s = u :: s2 ∧ Char.toUpper u = a := by
  cases s with
  | nil => simp [toUpperStr] at h
  | cons u s2 =>
    refine ⟨u, s2, rfl, ?_⟩
    exact ((List.cons_prefix_cons.mp (by simpa [toUpperStr] using h)).1).symm

/-- Helper: a line starting with two hashes does not start with hash-space. -/
theorem not_hash_pre {r : Str} : ¬ ("# ".toList <+: ('#' :: '#' :: r)) := by
  intro h
  exact absurd (List.cons_prefix_cons.mp (List.cons_prefix_cons.mp h).2).1 (by decide)

/-- Helper: a line starting with three hashes does not start with
hash-hash-space. -/
theorem not_hashhash_pre {r : Str} : ¬ ("## ".toList <+: ('#' :: '#' :: '#' :: r)) := by
  intro h
  exact absurd
    (List.cons_prefix_cons.mp (List.cons_prefix_cons.mp (List.cons_prefix_cons.mp h).2).2).1
    (by decide)

/-!  Claim theorems. -/

/-- Claim C2: the Extractor classifies every surviving paragraph
first-match-wins in the exact priority order SECTION, PART-with-hyphen,
article pattern, then the five list-label patterns at depths 0 through 4,
with Body as the default: the source classification chain `classify` equals
the spec-described ordered-rule classifier `classifySpec`. -/
theorem extractor_priority_order (t : Str) : classify t = classifySpec t := by
  simp only [classify, classifySpec, specRules, firstMatch, decide_eq_true_eq]

end SpecFormat

namespace SpecFormat

/-- Helper: `extractDoc` distributes over append. -/
theorem extractDoc_append (ps qs : List (Str × Str)) :
    extractDoc (ps ++ qs) = extractDoc ps ++ extractDoc qs := by
  induction ps with
  | nil => rfl
  | cons p ps ih => simp [extractDoc, ih]

/-- Claim C8: a paragraph whose style name is in the denylist, or whose
trimmed text starts with one of the configured literal prefixes, produces
no intermediate line: its own emission is empty and the document's
intermediate representation is exactly what the surrounding paragraphs
produce. -/
theorem filtered_paragraph_emits_nothing (styleName rawText : Str)
    (h : styleName ∈ IGNORED_STYLES ∨ ∃ k ∈ IGNORED_STARTS, k <+: strip rawText) :
    extractPara styleName rawText = [] ∧
    ∀ ps qs, extractDoc (ps ++ (styleName, rawText) :: qs) =
      extractDoc ps ++ extractDoc qs := by
  have h1 : extractPara styleName rawText = [] := by
    simp only [extractPara]
    by_cases he : strip rawText = []
    · rw [if_pos he]
    · rw [if_neg he]
      rcases h with hsty | ⟨k, hk, hkpre⟩
      · rw [if_pos hsty]
      · by_cases hsty : styleName ∈ IGNORED_STYLES
        · rw [if_pos hsty]
        · rw [if_neg hsty,
              if_pos (List.any_eq_true.mpr ⟨k, hk, by simpa using hkpre⟩)]
  refine ⟨h1, fun ps qs => ?_⟩
  rw [extractDoc_append]
  simp [extractDoc, h1]

/-- Witness for C8 at a concrete input: a paragraph styled "Note" emits
nothing. -/
theorem filtered_paragraph_emits_nothing_witness :
    extractPara "Note".toList "Provide dampers.".toList = [] ∧
    ∀ ps qs, extractDoc (ps ++ ("Note".toList, "Provide dampers.".toList) :: qs) =
      extractDoc ps ++ extractDoc qs :=
  filtered_paragraph_emits_nothing "Note".toList "Provide dampers.".toList
    (Or.inl (by decide))

/-- Helper: on a list line (stripped text starting with dash-space) the
Rebuilder takes the list branch of `processLine`. -/
theorem processLine_list_branch (cfg : Config) (tmpl : Template) (flag : Bool)
    (line : Str) (h : "- ".toList <+: strip (rstrip line)) :
    processLine cfg tmpl flag line =
      match listTargetStyle cfg.listLevels
          ((rstrip line).findIdx (fun c => c == '-') / 2) with
      | .error e => .error e
      | .ok st =>
        match addSafeParagraph tmpl
            (if cfg.stripListLabels then
               stripListLabel ((strip (rstrip line)).drop 2)
             else (strip (rstrip line)).drop 2) st with
        | .error e => .error e
        | .ok p => .ok ([p], false) := by
  obtain ⟨rest, hrest⟩ := h
  simp only [processLine]
  rw [if_neg (by rw [← hrest]; simp),
      if_neg (by rw [← hrest]; exact not_pre_head (by decide) _ _),
      if_neg (by rw [← hrest]; exact not_pre_head (by decide) _ _),
      if_neg (by rw [← hrest]; exact not_pre_head (by decide) _ _),
      if_neg (by rw [← hrest]; exact not_pre_head (by decide) _ _),
      if_pos (by rw [← hrest]; exact List.prefix_append _ _)]

/-- Claim C7: list-style clamping.  For a list line with computed depth
`d = (index of the dash) / 2`, the selected style is `listLevels[d]` when
`d` is in range and the last entry of `listLevels` for every `d` beyond the
end, and `processLine` emits through exactly that selection. -/
theorem list_style_clamping (cfg : Config) (tmpl : Template) (flag : Bool)
    (line : Str) (hpre : "- ".toList <+: strip (rstrip line))
    (hne : cfg.listLevels ≠ []) :
    (∀ h : (rstrip line).findIdx (fun c => c == '-') / 2 < cfg.listLevels.length,
       listTargetStyle cfg.listLevels ((rstrip line).findIdx (fun c => c == '-') / 2) =
         .ok (cfg.listLevels.get
           ⟨(rstrip line).findIdx (fun c => c == '-') / 2, h⟩)) ∧
    (cfg.listLevels.length ≤ (rstrip line).findIdx (fun c => c == '-') / 2 →
       listTargetStyle cfg.listLevels ((rstrip line).findIdx (fun c => c == '-') / 2) =
         .ok (cfg.listLevels.get
           ⟨cfg.listLevels.length - 1,
            Nat.sub_lt (List.length_pos.mpr hne) Nat.one_pos⟩)) ∧
    processLine cfg tmpl flag line =
      match listTargetStyle cfg.listLevels
          ((rstrip line).findIdx (fun c => c == '-') / 2) with
      | .error e => .error e
      | .ok st =>
        match addSafeParagraph tmpl
            (if cfg.stripListLabels then
               stripListLabel ((strip (rstrip line)).drop 2)
             else (strip (rstrip line)).drop 2) st with
        | .error e => .error e
        | .ok p => .ok ([p], false) := by
  refine ⟨fun h => ?_, fun h => ?_, processLine_list_branch cfg tmpl flag line hpre⟩
  · unfold listTargetStyle; rw [dif_pos h]
  · unfold listTargetStyle
    rw [dif_neg (by omega), List.getLast?_eq_getLast _ hne]
    exact congrArg Except.ok (by simp [List.getLast_eq_getElem, List.get_eq_getElem])

/-- Witness for C7 at a concrete input: depth 3 with the three default
list levels selects the last configured entry. -/
theorem list_style_clamping_witness :
    listTargetStyle DEFAULT_CONFIG.listLevels 3 = .ok ("List Bullet 3".toList) := by
  exact (list_style_clamping DEFAULT_CONFIG sampleTemplate false
    "      - 1) deep item".toList (by decide) (by decide)).2.1 (by decide)

/-- Claim C6: a line whose stripped text starts case-insensitively with
"END OF SECTION" is emitted with the configured Title style, for any state
of the previous-line-was-title flag (the check is the first branch of the
line loop). -/
theorem end_of_section_always_title (cfg : Config) (tmpl : Template)
    (flag : Bool) (line st : Str)
    (hpre : "END OF SECTION".toList <+: toUpperStr (strip (rstrip line)))
    (ht : cfg.styles.title = some st) (hmem : st ∈ tmpl) :
    processLine cfg tmpl flag line = .ok ([(strip (rstrip line), st)], false) := by
  obtain ⟨u, s2, hs, hu⟩ := upper_pre_head hpre
  simp only [processLine]
  rw [if_neg (by rw [hs]; simp), if_pos hpre, ht]
  simp only [getStyle]
  unfold addSafeParagraph
  rw [if_pos hmem]

/-- Witness for C6 at a concrete input, with the flag set. -/
theorem end_of_section_always_title_witness :
    processLine DEFAULT_CONFIG sampleTemplate true "End of Section 23 21 13".toList =
      .ok ([(strip (rstrip "End of Section 23 21 13".toList),
             "Heading 1".toList)], false) :=
  end_of_section_always_title DEFAULT_CONFIG sampleTemplate true
    "End of Section 23 21 13".toList "Heading 1".toList (by decide) rfl (by decide)

/-- Counterexample for C5 as stated: on the line `"# A # B"` the Rebuilder
emits the text `"A B"` (every occurrence of `"# "` removed, because the
source uses `str.replace`), not `"A # B"` (only the leading marker
removed). -/
theorem hash_line_replace_counterexample :
    processLine DEFAULT_CONFIG sampleTemplate false "# A # B".toList =
      .ok ([("A B".toList, "Heading 1".toList)], true) ∧
    "A B".toList ≠ "A # B".toList := ⟨rfl, by decide⟩

/-- Claim C5 as amended: for a line whose stripped text starts with `"# "`,
the Rebuilder emits exactly one paragraph with the configured Title style
whose text is the stripped text with every (non-overlapping, left-to-right)
occurrence of `"# "` removed — not only the leading prefix. -/
theorem hash_line_strips_all_marker_occurrences (cfg : Config) (tmpl : Template)
    (flag : Bool) (line st : Str)
    (hpre : "# ".toList <+: strip (rstrip line))
    (ht : cfg.styles.title = some st) (hmem : st ∈ tmpl) :
    processLine cfg tmpl flag line =
      .ok ([(removeAll "# ".toList (strip (rstrip line)), st)], true) := by
  obtain ⟨rest, hrest⟩ := hpre
  simp only [processLine]
  rw [if_neg (by rw [← hrest]; simp),
      if_neg (by rw [← hrest]; exact not_pre_head (by decide) _ _),
      if_pos (by rw [← hrest]; exact List.prefix_append _ _), ht]
  simp only [getStyle]
  unfold addSafeParagraph
  rw [if_pos hmem]

/-- Witness for the amended C5 at a concrete input. -/
theorem hash_line_strips_all_marker_occurrences_witness :
    processLine DEFAULT_CONFIG sampleTemplate false "# SECTION 23 21 13".toList =
      .ok ([(removeAll "# ".toList (strip (rstrip "# SECTION 23 21 13".toList)),
             "Heading 1".toList)], true) :=
  hash_line_strips_all_marker_occurrences DEFAULT_CONFIG sampleTemplate false
    "# SECTION 23 21 13".toList "Heading 1".toList (by decide) rfl (by decide)

end SpecFormat

namespace SpecFormat

/-- Counterexample for C9 as stated: rebuilding the single line
`"# SECTION 23 21 13"` against a template containing only 'Normal', with a
configuration requesting the absent style "CSILevel0", falls back to
'Normal' for the emission yet produces an empty log: no warning is
reported. -/
theorem silent_fallback_counterexample :
    ("CSILevel0".toList ∉ normalOnlyTemplate) ∧
    rebuild true normalOnlyTemplate csiConfig ["# SECTION 23 21 13".toList] =
      (true, [], some [("SECTION 23 21 13".toList, "Normal".toList)]) :=
  ⟨by decide, rfl⟩

/-- Claim C9 as amended: when an emission's configured style is absent from
the template, the Rebuilder emits the text with the default 'Normal' style
but reports no warning — the fallback is silent; the only messages
`rebuild` ever logs are the template-missing error and the whole-document
abort error, never `styleWarning`. -/
theorem style_fallback_is_silent (te : Bool) (tmpl : Template) (cfg : Config)
    (lines : List Str) (text st warned : Str)
    (habs : st ∉ tmpl) (hN : "Normal".toList ∈ tmpl) :
    addSafeParagraph tmpl text st = .ok (text, "Normal".toList) ∧
    LogMsg.styleWarning warned ∉ (rebuild te tmpl cfg lines).2.1 := by
  constructor
  · unfold addSafeParagraph
    rw [if_neg habs, if_pos hN]
  · unfold rebuild
    split
    · simp
    · split <;> simp

/-- Witness for the amended C9 at a concrete input. -/
theorem style_fallback_is_silent_witness :
    addSafeParagraph normalOnlyTemplate "Ductwork".toList "CSILevel0".toList =
      .ok ("Ductwork".toList, "Normal".toList) ∧
    LogMsg.styleWarning "CSILevel0".toList ∉
      (rebuild true normalOnlyTemplate csiConfig
        ["# SECTION 23 21 13".toList]).2.1 :=
  style_fallback_is_silent true normalOnlyTemplate csiConfig
    ["# SECTION 23 21 13".toList] "Ductwork".toList "CSILevel0".toList
    "CSILevel0".toList (by decide) (by decide)

/-- Helper: a hash-space line raises when the "Title" key is missing. -/
theorem processLine_error_title_hash (cfg : Config) (tmpl : Template)
    (flag : Bool) (line : Str)
    (hpre : "# ".toList <+: strip (rstrip line))
    (ht : cfg.styles.title = none) :
    processLine cfg tmpl flag line = .error () := by
  obtain ⟨rest, hrest⟩ := hpre
  simp only [processLine]
  rw [if_neg (by rw [← hrest]; simp),
      if_neg (by rw [← hrest]; exact not_pre_head (by decide) _ _),
      if_pos (by rw [← hrest]; exact List.prefix_append _ _), ht]
  rfl

/-- Helper: an END OF SECTION line raises when the "Title" key is
missing. -/
theorem processLine_error_title_eos (cfg : Config) (tmpl : Template)
    (flag : Bool) (line : Str)
    (hpre : "END OF SECTION".toList <+: toUpperStr (strip (rstrip line)))
    (ht : cfg.styles.title = none) :
    processLine cfg tmpl flag line = .error () := by
  obtain ⟨u, s2, hs, hu⟩ := upper_pre_head hpre
  simp only [processLine]
  rw [if_neg (by rw [hs]; simp), if_pos hpre, ht]
  rfl

/-- Helper: a hash-hash-space line raises when the "Part" key is
missing. -/
theorem processLine_error_part (cfg : Config) (tmpl : Template)
    (flag : Bool) (line : Str)
    (hpre : "## ".toList <+: strip (rstrip line))
    (hp : cfg.styles.part = none) :
    processLine cfg tmpl flag line = .error () := by
  obtain ⟨rest, hrest⟩ := hpre
  simp only [processLine]
  rw [if_neg (by rw [← hrest]; simp),
      if_neg (by rw [← hrest]; exact not_pre_head (by decide) _ _),
      if_neg (by rw [← hrest]; exact not_hash_pre),
      if_pos (by rw [← hrest]; exact List.prefix_append _ _), hp]
  rfl

/-- Helper: a triple-hash-space line raises when the "Article" key is
missing. -/
theorem processLine_error_article (cfg : Config) (tmpl : Template)
    (flag : Bool) (line : Str)
    (hpre : "### ".toList <+: strip (rstrip line))
    (ha : cfg.styles.article = none) :
    processLine cfg tmpl flag line = .error () := by
  obtain ⟨rest, hrest⟩ := hpre
  simp only [processLine]
  rw [if_neg (by rw [← hrest]; simp),
      if_neg (by rw [← hrest]; exact not_pre_head (by decide) _ _),
      if_neg (by rw [← hrest]; exact not_hash_pre),
      if_neg (by rw [← hrest]; exact not_hashhash_pre),
      if_pos (by rw [← hrest]; exact List.prefix_append _ _), ha]
  rfl

/-- Helper: if some line of the input raises for every flag state, the
whole line loop raises. -/
theorem runLines_error_of_mem (cfg : Config) (tmpl : Template)
    (lines : List Str) (l : Str) (hl : l ∈ lines)
    (herr : ∀ flag, processLine cfg tmpl flag l = .error ()) :
    ∀ flag, runLines cfg tmpl flag lines = .error () := by
  induction lines with
  | nil => cases hl
  | cons a as ih =>
    intro flag
    rcases List.mem_cons.mp hl with rfl | hmem
    · simp only [runLines]
      rw [herr flag]
    · simp only [runLines]
      cases hp : processLine cfg tmpl flag a with
      | error e => rfl
      | ok pr =>
        obtain ⟨ps, f2⟩ := pr
        show (match runLines cfg tmpl f2 as with
              | Except.error e => Except.error e
              | Except.ok rest => Except.ok (ps ++ rest)) = Except.error ()
        rw [ih hmem f2]

/-- Claim C10: if the parsed configuration's styles mapping lacks a key the
Rebuilder needs ("Title", "Part" or "Article") and some intermediate line
requires that key, the dictionary lookup raises, the outer handler logs an
error and `rebuild` returns False: the entire document is aborted with no
output produced, with no per-paragraph fallback. -/
theorem missing_style_key_aborts (tmpl : Template) (cfg : Config)
    (lines : List Str)
    (h : (cfg.styles.title = none ∧ ∃ l ∈ lines,
            ("# ".toList <+: strip (rstrip l) ∨
             "END OF SECTION".toList <+: toUpperStr (strip (rstrip l)))) ∨
         (cfg.styles.part = none ∧
            ∃ l ∈ lines, "## ".toList <+: strip (rstrip l)) ∨
         (cfg.styles.article = none ∧
            ∃ l ∈ lines, "### ".toList <+: strip (rstrip l))) :
    rebuild true tmpl cfg lines = (false, [LogMsg.buildError], none) := by
  have herr : runLines cfg tmpl false lines = .error () := by
    rcases h with ⟨ht, l, hl, hc⟩ | ⟨hp, l, hl, hc⟩ | ⟨ha, l, hl, hc⟩
    · refine runLines_error_of_mem cfg tmpl lines l hl (fun flag => ?_) false
      rcases hc with hc | hc
      · exact processLine_error_title_hash cfg tmpl flag l hc ht
      · exact processLine_error_title_eos cfg tmpl flag l hc ht
    · exact runLines_error_of_mem cfg tmpl lines l hl
        (fun flag => processLine_error_part cfg tmpl flag l hc hp) false
    · exact runLines_error_of_mem cfg tmpl lines l hl
        (fun flag => processLine_error_article cfg tmpl flag l hc ha) false
  unfold rebuild
  rw [if_neg (by simp), herr]

/-- Witness for C10 at a concrete input: a configuration without a "Title"
key aborts on a section line. -/
theorem missing_style_key_aborts_witness :
    rebuild true sampleTemplate noTitleConfig ["# SECTION 23 21 13".toList] =
      (false, [LogMsg.buildError], none) :=
  missing_style_key_aborts sampleTemplate noTitleConfig
    ["# SECTION 23 21 13".toList]
    (Or.inl ⟨rfl, "# SECTION 23 21 13".toList, by decide, Or.inl (by decide)⟩)

/-- Helper: with 'Normal' present in the template, `add_safe_paragraph`
always succeeds. -/
theorem addSafeParagraph_ok (tmpl : Template) (text st : Str)
    (hN : "Normal".toList ∈ tmpl) :
    ∃ p, addSafeParagraph tmpl text st = .ok p := by
  unfold addSafeParagraph
  by_cases h : st ∈ tmpl
  · exact ⟨(text, st), by rw [if_pos h]⟩
  · exact ⟨(text, "Normal".toList), by rw [if_neg h, if_pos hN]⟩

/-- Helper: with a non-empty `list_levels`, the list-style selection always
succeeds. -/
theorem listTargetStyle_ok (lm : List Str) (hne : lm ≠ []) (d : Nat) :
    ∃ st, listTargetStyle lm d = .ok st := by
  unfold listTargetStyle
  by_cases h : d < lm.length
  · exact ⟨lm.get ⟨d, h⟩, by rw [dif_pos h]⟩
  · refine ⟨lm.getLast hne, ?_⟩
    rw [dif_neg h, List.getLast?_eq_getLast _ hne]

/-- Helper: with all three style keys present, 'Normal' in the template and
a non-empty `list_levels`, no line raises. -/
theorem processLine_total (cfg : Config) (tmpl : Template) (flag : Bool)
    (line : Str)
    (hN : "Normal".toList ∈ tmpl) (ht : cfg.styles.title ≠ none)
    (hp : cfg.styles.part ≠ none) (ha : cfg.styles.article ≠ none)
    (hl : cfg.listLevels ≠ []) :
    ∃ r, processLine cfg tmpl flag line = .ok r := by
  rcases hto : cfg.styles.title with _ | st1
  · exact absurd hto ht
  rcases hpo : cfg.styles.part with _ | st2
  · exact absurd hpo hp
  rcases hao : cfg.styles.article with _ | st3
  · exact absurd hao ha
  simp only [processLine, hto, hpo, hao, getStyle]
  split
  · exact ⟨([], flag), rfl⟩
  split
  · obtain ⟨p, h1⟩ := addSafeParagraph_ok tmpl (strip (rstrip line)) st1 hN
    rw [h1]; exact ⟨([p], false), rfl⟩
  split
  · obtain ⟨p, h1⟩ := addSafeParagraph_ok tmpl _ st1 hN
    rw [h1]; exact ⟨([p], true), rfl⟩
  split
  · obtain ⟨p, h1⟩ := addSafeParagraph_ok tmpl _ st2 hN
    rw [h1]; exact ⟨([p], false), rfl⟩
  split
  · obtain ⟨p, h1⟩ := addSafeParagraph_ok tmpl _ st3 hN
    rw [h1]; exact ⟨([p], false), rfl⟩
  split
  · obtain ⟨st4, h4⟩ := listTargetStyle_ok cfg.listLevels hl
      ((rstrip line).findIdx (fun c => c == '-') / 2)
    simp only [h4]
    obtain ⟨p, h1⟩ := addSafeParagraph_ok tmpl _ st4 hN
    rw [h1]; exact ⟨([p], false), rfl⟩
  by_cases hf : flag
  · rw [if_pos hf]
    obtain ⟨p, h1⟩ := addSafeParagraph_ok tmpl _ st1 hN
    rw [h1]; exact ⟨([p], false), rfl⟩
  · rw [if_neg hf]
    obtain ⟨p, h1⟩ := addSafeParagraph_ok tmpl _ "Normal".toList hN
    rw [h1]; exact ⟨([p], false), rfl⟩

/-- Helper: under the same conditions the whole line loop succeeds. -/
theorem runLines_total (cfg : Config) (tmpl : Template)
    (hN : "Normal".toList ∈ tmpl) (ht : cfg.styles.title ≠ none)
    (hp : cfg.styles.part ≠ none) (ha : cfg.styles.article ≠ none)
    (hl : cfg.listLevels ≠ []) :
    ∀ (flag : Bool) (lines : List Str),
      ∃ out, runLines cfg tmpl flag lines = .ok out := by
  intro flag lines
  induction lines generalizing flag with
  | nil => exact ⟨[], rfl⟩
  | cons a as ih =>
    obtain ⟨⟨ps, f2⟩, h1⟩ := processLine_total cfg tmpl flag a hN ht hp ha hl
    obtain ⟨out, h2⟩ := ih f2
    exact ⟨ps ++ out, by simp only [runLines, h1, h2]⟩

/-- Claim C4: style fallback is non-fatal.  Every emission whose configured
style name is absent from the template falls back to the same text with the
template's 'Normal' style, and (with the configuration keys present, which
is the only other failure source) the rebuild processes all lines and still
produces the output document. -/
theorem style_fallback_nonfatal (tmpl : Template) (cfg : Config)
    (lines : List Str)
    (hN : "Normal".toList ∈ tmpl) (ht : cfg.styles.title ≠ none)
    (hp : cfg.styles.part ≠ none) (ha : cfg.styles.article ≠ none)
    (hl : cfg.listLevels ≠ []) :
    (∀ text st, st ∉ tmpl →
        addSafeParagraph tmpl text st = .ok (text, "Normal".toList)) ∧
    ∃ out, rebuild true tmpl cfg lines = (true, [], some out) := by
  constructor
  · intro text st habs
    unfold addSafeParagraph
    rw [if_neg habs, if_pos hN]
  · obtain ⟨out, hout⟩ := runLines_total cfg tmpl hN ht hp ha hl false lines
    refine ⟨out, ?_⟩
    unfold rebuild
    rw [if_neg (by simp), hout]

/-- Witness for C4 at a concrete input: a configuration whose style names
are all absent from the template still produces an output document. -/
theorem style_fallback_nonfatal_witness :
    addSafeParagraph normalOnlyTemplate "Ducts".toList "CSILevel9".toList =
      .ok ("Ducts".toList, "Normal".toList) ∧
    ∃ out, rebuild true normalOnlyTemplate csiConfig
      ["# SECTION 23 21 13".toList, "- A. Provide dampers.".toList] =
      (true, [], some out) := by
  have h := style_fallback_nonfatal normalOnlyTemplate csiConfig
    ["# SECTION 23 21 13".toList, "- A. Provide dampers.".toList]
    (by decide) (by decide) (by decide) (by decide) (by decide)
  exact ⟨h.1 "Ducts".toList "CSILevel9".toList (by decide), h.2⟩

end SpecFormat

namespace SpecFormat

/-- Helper: a single error/ok match that ends in `([p], b)` can only
return ok results whose flag is `b`. -/
theorem single_ok_flag {Y : Except Unit (Str × Str)}
    {ps : List (Str × Str)} {f2 b : Bool}
    (h : (match Y with
          | .error e => Except.error e
          | .ok p => Except.ok ([p], b)) = Except.ok (ps, f2)) : f2 = b := by
  rcases Y with e | p
  · simp at h
  · simp only [Except.ok.injEq, Prod.mk.injEq] at h
    exact h.2.symm

/-- Helper: a two-step error/ok match chain that ends in `([p], b)` can
only return ok results whose flag is `b`. -/
theorem chain_ok_flag {X : Except Unit Str} {Y : Str → Except Unit (Str × Str)}
    {ps : List (Str × Str)} {f2 b : Bool}
    (h : (match X with
          | .error e => Except.error e
          | .ok st =>
            match Y st with
            | .error e => Except.error e
            | .ok p => Except.ok ([p], b)) = Except.ok (ps, f2)) : f2 = b := by
  rcases X with e | st
  · simp at h
  · have h2 : (match Y st with
               | .error e => Except.error e
               | .ok p => Except.ok ([p], b)) = Except.ok (ps, f2) := h
    exact single_ok_flag h2

/-- Claim C3: the Rebuilder's cross-line state is exactly the one Boolean
previous-line-was-title: a blank line leaves it unchanged; every processed
line sets it to true exactly when the line's stripped text starts with
hash-space (so the machine enters AfterTitle only on a hash line and leaves
it on any other processed line); and a Body line processed in AfterTitle is
emitted with the configured Title style before the flag falls back to
false. -/
theorem rebuilder_state_machine (cfg : Config) (tmpl : Template) :
    (∀ (flag : Bool) (line : Str), strip (rstrip line) = [] →
        processLine cfg tmpl flag line = .ok ([], flag)) ∧
    (∀ (flag : Bool) (line : Str) (ps : List (Str × Str)) (f2 : Bool),
        processLine cfg tmpl flag line = .ok (ps, f2) →
        strip (rstrip line) ≠ [] →
        (f2 = true ↔ "# ".toList <+: strip (rstrip line))) ∧
    (∀ (line st : Str), strip (rstrip line) ≠ [] →
        ¬("END OF SECTION".toList <+: toUpperStr (strip (rstrip line))) →
        ¬("# ".toList <+: strip (rstrip line)) →
        ¬("## ".toList <+: strip (rstrip line)) →
        ¬("### ".toList <+: strip (rstrip line)) →
        ¬("- ".toList <+: strip (rstrip line)) →
        cfg.styles.title = some st → st ∈ tmpl →
        processLine cfg tmpl true line = .ok ([(strip (rstrip line), st)], false)) := by
  refine ⟨fun flag line he => ?_, fun flag line ps f2 h hne => ?_,
          fun line st hne h1 h2 h3 h4 h5 ht hmem => ?_⟩
  · simp only [processLine]
    rw [if_pos he]
  · simp only [processLine] at h
    rw [if_neg hne] at h
    by_cases hEnd : "END OF SECTION".toList <+: toUpperStr (strip (rstrip line))
    · rw [if_pos hEnd] at h
      obtain ⟨u, s2, hs, hu⟩ := upper_pre_head hEnd
      have hnh : ¬("# ".toList <+: strip (rstrip line)) := by
        rw [hs]; intro hc
        rw [← (List.cons_prefix_cons.mp hc).1] at hu
        exact absurd hu (by decide)
      have hf := chain_ok_flag h
      rw [hf]
      exact iff_of_false (by simp) hnh
    · rw [if_neg hEnd] at h
      by_cases hH : "# ".toList <+: strip (rstrip line)
      · rw [if_pos hH] at h
        have hf := chain_ok_flag h
        rw [hf]
        exact iff_of_true rfl hH
      · rw [if_neg hH] at h
        by_cases hH2 : "## ".toList <+: strip (rstrip line)
        · rw [if_pos hH2] at h
          have hf := chain_ok_flag h
          rw [hf]
          exact iff_of_false (by simp) hH
        · rw [if_neg hH2] at h
          by_cases hH3 : "### ".toList <+: strip (rstrip line)
          · rw [if_pos hH3] at h
            have hf := chain_ok_flag h
            rw [hf]
            exact iff_of_false (by simp) hH
          · rw [if_neg hH3] at h
            by_cases hD : "- ".toList <+: strip (rstrip line)
            · rw [if_pos hD] at h
              have hf := chain_ok_flag h
              rw [hf]
              exact iff_of_false (by simp) hH
            · rw [if_neg hD] at h
              by_cases hf : flag
              · rw [if_pos hf] at h
                have hf2 := chain_ok_flag h
                rw [hf2]
                exact iff_of_false (by simp) hH
              · rw [if_neg hf] at h
                have hf2 := single_ok_flag h
                rw [hf2]
                exact iff_of_false (by simp) hH
  · simp only [processLine]
    rw [if_neg hne, if_neg h1, if_neg h2, if_neg h3, if_neg h4, if_neg h5,
        if_pos trivial, ht]
    simp only [getStyle]
    unfold addSafeParagraph
    rw [if_pos hmem]

/-- Witness for C3 at a concrete input: a plain body line processed right
after a title line is emitted with the Title style and clears the flag. -/
theorem rebuilder_state_machine_witness :
    processLine DEFAULT_CONFIG sampleTemplate true
      "Exhaust Fans and Ductwork".toList =
      .ok ([(strip (rstrip "Exhaust Fans and Ductwork".toList),
             "Heading 1".toList)], false) :=
  (rebuilder_state_machine DEFAULT_CONFIG sampleTemplate).2.2
    "Exhaust Fans and Ductwork".toList "Heading 1".toList
    (by decide) (by decide) (by decide) (by decide) (by decide) (by decide)
    rfl (by decide)

end SpecFormat

namespace SpecFormat

/-- Helper: a surviving paragraph's emission is the marker line of its
classification. -/
theorem extractPara_surviving (styleName rawText : Str)
    (hne : strip rawText ≠ [])
    (hsty : styleName ∉ IGNORED_STYLES)
    (hkw : ∀ k ∈ IGNORED_STARTS, ¬(k <+: strip rawText)) :
    extractPara styleName rawText =
      kindLine (classify (strip rawText)) (strip rawText) := by
  have hany : ¬(IGNORED_STARTS.any (fun k => decide (k <+: strip rawText)) = true) := by
    rw [List.any_eq_true]
    rintro ⟨k, hk, hp⟩
    exact hkw k hk (by simpa using hp)
  simp only [extractPara]
  rw [if_neg hne, if_neg hsty, if_neg hany]

/-- Helper: the Rebuilder classes a section marker line as a title line. -/
theorem lineTag_hash (text : Str) (hr : rstrip text = text)
    (hne : text ≠ []) :
    lineTag ("# ".toList ++ text) = .title := by
  have hraw : rstrip ("# ".toList ++ text) = "# ".toList ++ text :=
    rstrip_append _ hr hne
  have hstr : strip ("# ".toList ++ text) = "# ".toList ++ text := by
    show rstrip (lstrip ('#' :: (' ' :: text))) = _
    rw [lstrip_cons_of_neg (by decide)]
    exact hraw
  simp only [lineTag, hraw, hstr]
  rw [if_neg (by simp), if_neg ?hEnd, if_pos (List.prefix_append _ _)]
  case hEnd =>
    show ¬("END OF SECTION".toList <+: toUpperStr ('#' :: (' ' :: text)))
    have h0 : toUpperStr ('#' :: (' ' :: text)) =
        Char.toUpper '#' :: toUpperStr (' ' :: text) := rfl
    rw [h0]
    exact not_pre_head (by decide) _ _

/-- Helper: the Rebuilder classes a part marker line as a part line. -/
theorem lineTag_parthdr (text : Str) (hr : rstrip text = text)
    (hne : text ≠ []) :
    lineTag ("## ".toList ++ text) = .part := by
  have hraw : rstrip ("## ".toList ++ text) = "## ".toList ++ text :=
    rstrip_append _ hr hne
  have hstr : strip ("## ".toList ++ text) = "## ".toList ++ text := by
    show rstrip (lstrip ('#' :: ('#' :: (' ' :: text)))) = _
    rw [lstrip_cons_of_neg (by decide)]
    exact hraw
  simp only [lineTag, hraw, hstr]
  rw [if_neg (by simp), if_neg ?hEnd, if_neg ?hH,
      if_pos (List.prefix_append _ _)]
  case hEnd =>
    show ¬("END OF SECTION".toList <+: toUpperStr ('#' :: ('#' :: (' ' :: text))))
    have h0 : toUpperStr ('#' :: ('#' :: (' ' :: text))) =
        Char.toUpper '#' :: toUpperStr ('#' :: (' ' :: text)) := rfl
    rw [h0]
    exact not_pre_head (by decide) _ _
  case hH =>
    show ¬("# ".toList <+: ('#' :: ('#' :: (' ' :: text))))
    exact not_hash_pre

/-- Helper: the Rebuilder classes an article marker line as an article
line. -/
theorem lineTag_articlehdr (text : Str) (hr : rstrip text = text)
    (hne : text ≠ []) :
    lineTag ("### ".toList ++ text) = .article := by
  have hraw : rstrip ("### ".toList ++ text) = "### ".toList ++ text :=
    rstrip_append _ hr hne
  have hstr : strip ("### ".toList ++ text) = "### ".toList ++ text := by
    show rstrip (lstrip ('#' :: ('#' :: ('#' :: (' ' :: text))))) = _
    rw [lstrip_cons_of_neg (by decide)]
    exact hraw
  simp only [lineTag, hraw, hstr]
  rw [if_neg (by simp), if_neg ?hEnd, if_neg ?hH, if_neg ?hHH,
      if_pos (List.prefix_append _ _)]
  case hEnd =>
    show ¬("END OF SECTION".toList <+:
        toUpperStr ('#' :: ('#' :: ('#' :: (' ' :: text)))))
    have h0 : toUpperStr ('#' :: ('#' :: ('#' :: (' ' :: text)))) =
        Char.toUpper '#' :: toUpperStr ('#' :: ('#' :: (' ' :: text))) := rfl
    rw [h0]
    exact not_pre_head (by decide) _ _
  case hH =>
    show ¬("# ".toList <+: ('#' :: ('#' :: ('#' :: (' ' :: text)))))
    exact not_hash_pre
  case hHH =>
    show ¬("## ".toList <+: ('#' :: ('#' :: ('#' :: (' ' :: text)))))
    exact not_hashhash_pre

/-- Helper: the Rebuilder classes a list marker line at 2d spaces of indent
as a list line of depth d. -/
theorem lineTag_listmark (d : Nat) (text : Str) (hr : rstrip text = text)
    (hne : text ≠ []) :
    lineTag (List.replicate (2 * d) ' ' ++ "- ".toList ++ text) =
      .listLine d := by
  have hraw : rstrip (List.replicate (2 * d) ' ' ++ "- ".toList ++ text) =
      List.replicate (2 * d) ' ' ++ "- ".toList ++ text :=
    rstrip_append _ hr hne
  have hstrip : strip (List.replicate (2 * d) ' ' ++ "- ".toList ++ text) =
      '-' :: (' ' :: text) := by
    show rstrip (lstrip ((List.replicate (2 * d) ' ' ++ "- ".toList) ++ text)) = _
    rw [List.append_assoc]
    show rstrip (List.dropWhile isWS
      (List.replicate (2 * d) ' ' ++ ('-' :: (' ' :: text)))) = _
    rw [dropWhile_replicate_append isWS ' ' (by decide),
        List.dropWhile_cons_of_neg (by decide)]
    exact rstrip_append ['-', ' '] hr hne
  have hidx : List.findIdx (fun c => c == '-')
      (List.replicate (2 * d) ' ' ++ "- ".toList ++ text) = 2 * d := by
    rw [List.append_assoc, findIdx_replicate_append _ ' ' (by decide)]
    simp [List.findIdx_cons]
  simp only [lineTag, hraw, hstrip, hidx]
  rw [if_neg (by simp), if_neg ?hEnd, if_neg ?hH, if_neg ?hHH, if_neg ?hHHH,
      if_pos (show "- ".toList <+: '-' :: (' ' :: text) from ⟨text, rfl⟩)]
  · congr 1
    omega
  case hEnd =>
    show ¬("END OF SECTION".toList <+: toUpperStr ('-' :: (' ' :: text)))
    have h0 : toUpperStr ('-' :: (' ' :: text)) =
        Char.toUpper '-' :: toUpperStr (' ' :: text) := rfl
    rw [h0]
    exact not_pre_head (by decide) _ _
  case hH => exact not_pre_head (by decide) _ _
  case hHH => exact not_pre_head (by decide) _ _
  case hHHH => exact not_pre_head (by decide) _ _

/-- Helper: the Rebuilder classes an indented body line with no marker as a
body line. -/
theorem lineTag_bodyline (text : Str) (hr : rstrip text = text)
    (hl : lstrip text = text) (hne : text ≠ [])
    (h1 : ¬("END OF SECTION".toList <+: toUpperStr text))
    (h2 : ¬("# ".toList <+: text)) (h3 : ¬("## ".toList <+: text))
    (h4 : ¬("### ".toList <+: text)) (h5 : ¬("- ".toList <+: text)) :
    lineTag ("  ".toList ++ text) = .body := by
  have hraw : rstrip ("  ".toList ++ text) = "  ".toList ++ text :=
    rstrip_append _ hr hne
  have hstrip : strip ("  ".toList ++ text) = text := by
    show rstrip (List.dropWhile isWS (' ' :: (' ' :: text))) = _
    rw [List.dropWhile_cons_of_pos (by decide),
        List.dropWhile_cons_of_pos (by decide)]
    show rstrip (lstrip text) = _
    rw [hl]
    exact hr
  simp only [lineTag, hraw, hstrip]
  rw [if_neg hne, if_neg h1, if_neg h2, if_neg h3, if_neg h4, if_neg h5]

/-- Counterexample for C1 as stated: the paragraph text `"- hello"`
survives the filter and is classified Body, but the emitted intermediate
line `"  - hello"` re-parses in the Rebuilder as a list line of depth 1,
not as a body line. -/
theorem classification_roundtrip_counterexample :
    classify "- hello".toList = Kind.body ∧
    extractPara "Normal".toList "- hello".toList = ["  - hello".toList] ∧
    lineTag "  - hello".toList = LineTag.listLine 1 ∧
    LineTag.listLine 1 ≠ kindTag Kind.body :=
  ⟨by decide, by decide, by decide, by decide⟩

/-- Claim C1 as amended: for every non-empty source paragraph that survives
the filter policy, re-parsing the single non-blank intermediate line the
Extractor emits recovers exactly the original classification and depth for
SectionTitle, PartHeader, ArticleHeader and ListItem paragraphs
unconditionally, and for Body paragraphs provided the paragraph text does
not itself start with one of the Rebuilder's markers (`# `, `## `, `### `,
`- `) or, case-insensitively, with `END OF SECTION`. -/
theorem classification_roundtrip (styleName rawText : Str)
    (hne : strip rawText ≠ [])
    (hsty : styleName ∉ IGNORED_STYLES)
    (hkw : ∀ k ∈ IGNORED_STARTS, ¬(k <+: strip rawText))
    (hbody : classify (strip rawText) = Kind.body →
      ¬("END OF SECTION".toList <+: toUpperStr (strip rawText)) ∧
      ¬("# ".toList <+: strip rawText) ∧ ¬("## ".toList <+: strip rawText) ∧
      ¬("### ".toList <+: strip rawText) ∧ ¬("- ".toList <+: strip rawText)) :
    ((extractPara styleName rawText).filter (fun l => !l.isEmpty)).map lineTag =
      [kindTag (classify (strip rawText))] := by
  rw [extractPara_surviving styleName rawText hne hsty hkw]
  have hr : rstrip (strip rawText) = strip rawText := rstrip_strip rawText
  have hl : lstrip (strip rawText) = strip rawText := lstrip_strip rawText
  cases hk : classify (strip rawText) with
  | sectionTitle =>
    have hfil : (kindLine Kind.sectionTitle (strip rawText)).filter
        (fun l => !l.isEmpty) = ["# ".toList ++ strip rawText] := by
      simp [kindLine]
    rw [hfil, List.map_singleton, lineTag_hash _ hr hne]
    rfl
  | partHeader =>
    have hfil : (kindLine Kind.partHeader (strip rawText)).filter
        (fun l => !l.isEmpty) = ["## ".toList ++ strip rawText] := by
      simp [kindLine]
    rw [hfil, List.map_singleton, lineTag_parthdr _ hr hne]
    rfl
  | articleHeader =>
    have hfil : (kindLine Kind.articleHeader (strip rawText)).filter
        (fun l => !l.isEmpty) = ["### ".toList ++ strip rawText] := by
      simp [kindLine]
    rw [hfil, List.map_singleton, lineTag_articlehdr _ hr hne]
    rfl
  | listItem d =>
    have hfil : (kindLine (Kind.listItem d) (strip rawText)).filter
        (fun l => !l.isEmpty) =
        [List.replicate (2 * d) ' ' ++ "- ".toList ++ strip rawText] := by
      simp [kindLine]
    rw [hfil, List.map_singleton, lineTag_listmark d _ hr hne]
    rfl
  | body =>
    obtain ⟨h1, h2, h3, h4, h5⟩ := hbody hk
    have hfil : (kindLine Kind.body (strip rawText)).filter
        (fun l => !l.isEmpty) = ["  ".toList ++ strip rawText] := by
      simp [kindLine]
    rw [hfil, List.map_singleton, lineTag_bodyline _ hr hl hne h1 h2 h3 h4 h5]
    rfl

/-- Witness for the amended C1 at a concrete input: a SECTION paragraph
round-trips to a title line. -/
theorem classification_roundtrip_witness :
    ((extractPara "Heading 9".toList "SECTION 23 21 13".toList).filter
        (fun l => !l.isEmpty)).map lineTag =
      [kindTag (classify (strip "SECTION 23 21 13".toList))] :=
  classification_roundtrip "Heading 9".toList "SECTION 23 21 13".toList
    (by decide) (by decide) (by decide) (by decide)

end SpecFormat
